import Mathlib

/-!
# Verification of the jx3-tools hotkey automation engine and frontend helpers

Shallow embedding of the hotkey automation core described in `spec.md` and of
the frontend helper functions found in the repository sources
(`src/views/hotkey/HotkeyView.vue`, `src/composables/useMac.ts`,
`src/types/hotkey.ts`, `src/stores/hotkey.ts`).

The Rust/Tauri backend that implements the automation engine proper
(KeyCodec, WindowRegistry, InputInjector, HotkeyListener, AutomationEngine)
is not part of the frontend sources; where a claim is decided by that code we
model the missing component from the specification, and each such definition
carries a doc comment starting with `Modelled from the spec:`.
-/

namespace JxTools

/-! ## JavaScript string primitives

Faithful models of the JavaScript builtins used by the frontend code:
`Array.prototype.join`, `String.prototype.toUpperCase` (ASCII),
`String.prototype.split` on a single-character separator,
`charAt(0).toUpperCase() + slice(1)`, and `Number.prototype.toString(16)`
with `padStart(2, '0')` for byte values. -/

/-- Model of JavaScript `Array.prototype.join(sep)`. -/
def joinWith (sep : String) : List String → String
  | [] => ""
  | [x] => x
  | x :: y :: xs => x ++ sep ++ joinWith sep (y :: xs)

/-- Model of JavaScript `String.prototype.toUpperCase()` on ASCII text. -/
def jsToUpperCase (s : String) : String :=
  String.mk (s.data.map Char.toUpper)

/-- Model of JavaScript `key.charAt(0).toUpperCase() + key.slice(1)`. -/
def capitalizeFirst (s : String) : String :=
  match s.data with
  | [] => ""
  | c :: rest => String.mk (c.toUpper :: rest)

/-- Model of JavaScript `String.prototype.split(sep)` for a one-character
separator, working on the character list. -/
def splitOnChar (sep : Char) : List Char → List (List Char)
  | [] => [[]]
  | c :: rest =>
    let r := splitOnChar sep rest
    if c = sep then [] :: r
    else
      match r with
      | g :: gs => (c :: g) :: gs
      | [] => [[c]]

/-! ## Keyboard events and the hotkey-string builder

Embedded from `src/views/hotkey/HotkeyView.vue` (identical code appears in
the earlier revision of the view). A `KeyboardEvent` is modelled by the
fields the code reads; `isMac` models `navigator.platform.includes('Mac')`. -/

structure KeyboardEvent where
  key : String
  ctrlKey : Bool
  altKey : Bool
  shiftKey : Bool
  metaKey : Bool
deriving DecidableEq

/-- The `'Cmd'`/`'Win'` name chosen for the Meta key by platform. -/
def metaKeyName (isMac : Bool) : String :=
  if isMac then "Cmd" else "Win"

/-- Model of the `/^F\d+$/` regular-expression test in `keyEventToKeyName`. -/
def isFKeyName (key : String) : Bool :=
  match key.data with
  | 'F' :: rest => !rest.isEmpty && rest.all Char.isDigit
  | _ => false

/-- The body of `keyEventToKeyName` from `HotkeyView.vue`, as a function of
the `key` string read from the event (`const key = e.key`). -/
def keyNameOf (isMac : Bool) (key : String) : String :=
  if key = " " then "Space"
  else if key = "ArrowUp" then "Up"
  else if key = "ArrowDown" then "Down"
  else if key = "ArrowLeft" then "Left"
  else if key = "ArrowRight" then "Right"
  else if key = "Control" then "Ctrl"
  else if key = "Meta" then metaKeyName isMac
  else if isFKeyName key then key
  else if key.length = 1 then jsToUpperCase key
  else capitalizeFirst key

/-- Embedded from `keyEventToKeyName` in `HotkeyView.vue`: maps a
`KeyboardEvent.key` value to the key name shown and stored by the form. -/
def keyEventToKeyName (isMac : Bool) (e : KeyboardEvent) : String :=
  keyNameOf isMac e.key

/-- The bare-modifier names ignored by the hotkey capture handlers:
`['Control', 'Alt', 'Shift', 'Meta']` in the source. -/
def bareModifierNames : List String :=
  ["Control", "Alt", "Shift", "Meta"]

/-- Embedded from `buildHotkeyString` in `HotkeyView.vue`: the modifier
names pushed onto `parts` before the key name, in source order. -/
def modifierParts (isMac : Bool) (e : KeyboardEvent) : List String :=
  (if e.ctrlKey then ["Ctrl"] else []) ++
  (if e.altKey then ["Alt"] else []) ++
  (if e.shiftKey then ["Shift"] else []) ++
  (if e.metaKey then [metaKeyName isMac] else [])

/-- Embedded from `buildHotkeyString` in `HotkeyView.vue`: builds the
combination string for the start/stop hotkey inputs, returning `''` when the
pressed key is itself a bare modifier. -/
def buildHotkeyString (isMac : Bool) (e : KeyboardEvent) : String :=
  if e.key ∈ bareModifierNames then ""
  else joinWith "+" (modifierParts isMac e ++ [keyEventToKeyName isMac e])

/-! ## Random MAC generation

Embedded from `generateRandomMac` in `src/composables/useMac.ts`:

```js
const bytes = Array.from({ length: 6 }, () => Math.floor(Math.random() * 256))
bytes[0] = (bytes[0]! | 0x02) & 0xFE
return bytes.map(b => b.toString(16).padStart(2, '0')).join(':').toUpperCase()
```

The six random draws are passed in as parameters `b0 … b5`, each a natural
number below 256 (the range of `Math.floor(Math.random() * 256)`). -/

/-- Lowercase hex digit character, as produced by JavaScript
`Number.prototype.toString(16)`. -/
def hexDigitChar (n : Nat) : Char :=
  if n < 10 then Char.ofNat (48 + n) else Char.ofNat (87 + n)

/-- Model of `b.toString(16)` for a byte value `b < 256`: one digit below
16, two digits otherwise. -/
def jsHexString (b : Nat) : String :=
  if b < 16 then String.mk [hexDigitChar b]
  else String.mk [hexDigitChar (b / 16), hexDigitChar (b % 16)]

/-- Model of JavaScript `s.padStart(2, '0')`. -/
def padStart2 (s : String) : String :=
  if 2 ≤ s.length then s
  else String.mk (List.replicate (2 - s.length) '0') ++ s

/-- Embedded from `generateRandomMac` in `useMac.ts`, with the six draws of
`Math.floor(Math.random() * 256)` made explicit parameters. -/
def generateRandomMac (b0 b1 b2 b3 b4 b5 : Nat) : String :=
  jsToUpperCase (joinWith ":"
    ([(b0 ||| 0x02) &&& 0xFE, b1, b2, b3, b4, b5].map
      (fun b => padStart2 (jsHexString b))))


/-- An uppercase hexadecimal digit character. -/
def isUpperHexDigit (c : Char) : Bool :=
  (48 ≤ c.toNat && c.toNat ≤ 57) || (65 ≤ c.toNat && c.toNat ≤ 70)

/-- A canonical MAC octet: exactly two uppercase hex digit characters. -/
def isMacOctet (s : String) : Bool :=
  s.data.length = 2 && s.data.all isUpperHexDigit

/-- Numeric value of an uppercase hex digit character. -/
def hexVal (c : Char) : Nat :=
  if c.toNat ≤ 57 then c.toNat - 48 else c.toNat - 55

/-- Numeric value of a two-character octet string. -/
def octetValue (s : String) : Nat :=
  match s.data with
  | [c1, c2] => 16 * hexVal c1 + hexVal c2
  | _ => 0

/-- The upper-cased, zero-padded hex rendering of one byte — the octet text
that `generateRandomMac` produces for each byte. -/
def upperHexOctet (b : Nat) : String :=
  jsToUpperCase (padStart2 (jsHexString b))

/-! ## The automation engine

The data model below is embedded from `src/types/hotkey.ts`
(`TargetWindow`, `HotkeyConfig`, `HotkeyStatus`). The engine operations
themselves live in the Rust/Tauri backend, which is not among the frontend
sources; they are modelled from the specification (§3–§5, §7). -/

inductive KeyMode where
  | global
  | window
deriving DecidableEq

structure TargetWindow where
  hwnd : Nat
  title : String
  className : String
  processName : String
deriving DecidableEq

structure HotkeyConfig where
  triggerKey : String
  intervalMs : Int
  startHotkey : String
  stopHotkey : String
  keyMode : KeyMode
  targetWindow : Option TargetWindow
deriving DecidableEq

structure HotkeyStatus where
  running : Bool
  registered : Bool
  lastError : Option String
deriving DecidableEq

/-- Modelled from the spec: the engine-visible environment — how KeyCodec
resolves trigger keys and parses combination strings, which combinations
the OS already holds (HotkeyConflict), and the OS window query behind
`WindowRegistry.isValid` (`none` means the window's existence/visibility
cannot be confirmed). -/
structure Env where
  resolvable : String → Bool
  comboParsable : String → Bool
  comboFree : String → Bool
  queryWindow : Nat → Option Bool

/-- Modelled from the spec: `WindowRegistry.isValid(handle)` — re-checks
existence/visibility of a previously obtained handle; never throws, and
returns `false` for any handle that cannot be confirmed live. -/
def isValid (env : Env) (hwnd : Nat) : Bool :=
  (env.queryWindow hwnd).getD false

/-- The configuration invariant of §3:
`keyMode = Window` implies `targetWindow != null`. -/
def configInvariant (cfg : HotkeyConfig) : Prop :=
  cfg.keyMode = KeyMode.window → cfg.targetWindow ≠ none

instance (cfg : HotkeyConfig) : Decidable (configInvariant cfg) := by
  unfold configInvariant
  infer_instance

/-- Modelled from the spec: validation of a configuration on save (§3):
non-empty resolvable trigger key, `intervalMs` at or above the 20 ms floor,
non-empty, distinct and parsable start/stop hotkeys, and the
`keyMode = Window ⇒ targetWindow != null` invariant (the reject-on-save
policy of the §3 invariant). -/
def validateConfig (env : Env) (cfg : HotkeyConfig) : Bool :=
  cfg.triggerKey ≠ "" && env.resolvable cfg.triggerKey &&
  (20 : Int) ≤ cfg.intervalMs &&
  cfg.startHotkey ≠ "" && cfg.stopHotkey ≠ "" &&
  cfg.startHotkey ≠ cfg.stopHotkey &&
  env.comboParsable cfg.startHotkey && env.comboParsable cfg.stopHotkey &&
  configInvariant cfg

/-- The engine's owned state: the stored configuration and runtime status. -/
structure Engine where
  config : HotkeyConfig
  status : HotkeyStatus
deriving DecidableEq

/-- Modelled from the spec: `HotkeyListener.register` for the start/stop
slots (§4.4, §4.5) — `InvalidKeyFormat` when a combination is unparsable,
`HotkeyConflict` when another registrant already holds it; `none` on
success. -/
def registerHotkeys (env : Env) (cfg : HotkeyConfig) : Option String :=
  if !(env.comboParsable cfg.startHotkey && env.comboParsable cfg.stopHotkey) then
    some "InvalidKeyFormat"
  else if !(env.comboFree cfg.startHotkey && env.comboFree cfg.stopHotkey) then
    some "HotkeyConflict"
  else
    none

/-- Modelled from the spec: `init(config)` (§4.5) — loads the
configuration and attempts to register the start/stop hotkeys; on failure
the engine stays `Idle` with `registered = false` and `lastError` set,
and the configuration is stored regardless. -/
def initEngine (env : Env) (cfg : HotkeyConfig) : Engine :=
  match registerHotkeys env cfg with
  | none => ⟨cfg, ⟨false, true, none⟩⟩
  | some msg => ⟨cfg, ⟨false, false, some msg⟩⟩

/-- Modelled from the spec: `stopTask()` / `onStopHotkeyPressed` (§4.5) —
no-op when already `Idle`, otherwise cancels the loop
(`Running → Idle`). -/
def stopTask (e : Engine) : Engine :=
  if e.status.running then
    { e with status := { e.status with running := false } }
  else
    e

/-- Modelled from the spec: `saveConfig(next)` (§4.5, §7) — a malformed
configuration is rejected with `ValidationError` before any side effect;
otherwise the loop is stopped, hotkeys are re-registered and the
configuration is replaced (stored even when registration fails). Returns
the new engine state together with the caller-visible result. -/
def saveConfig (env : Env) (e : Engine) (next : HotkeyConfig) :
    Engine × Except String HotkeyConfig :=
  if validateConfig env next then
    match registerHotkeys env next with
    | none => (⟨next, ⟨false, true, none⟩⟩, Except.ok next)
    | some msg => (⟨next, ⟨false, false, some msg⟩⟩, Except.ok next)
  else
    (e, Except.error "ValidationError")

/-- Modelled from the spec: `onStartHotkeyPressed` (§4.5) — no-op when
already `Running`; otherwise validates (trigger key resolvable; in window
mode the target must still be valid) and either starts the loop or records
`lastError` and stays `Idle`. -/
def onStartHotkeyPressed (env : Env) (e : Engine) : Engine :=
  if e.status.running then e
  else if !(env.resolvable e.config.triggerKey) then
    { e with status := { e.status with lastError := some "trigger key not resolvable" } }
  else
    match e.config.keyMode, e.config.targetWindow with
    | KeyMode.window, some tw =>
      if isValid env tw.hwnd then
        { e with status := { e.status with running := true, lastError := none } }
      else
        { e with status := { e.status with lastError := some "target window closed" } }
    | KeyMode.window, none =>
      { e with status := { e.status with lastError := some "target window closed" } }
    | KeyMode.global, _ =>
      { e with status := { e.status with running := true, lastError := none } }

/-- Modelled from the spec: one tick of the injection loop (§4.5) — in
window mode the target is re-checked via `isValid`; when invalid the loop
stops with `lastError = "target window closed"`; an injection failure
(`injectOk = false`) is recorded but does not stop the loop; a successful
injection clears `lastError`. -/
def tick (env : Env) (injectOk : Bool) (e : Engine) : Engine :=
  if !e.status.running then e
  else
    match e.config.keyMode, e.config.targetWindow with
    | KeyMode.window, some tw =>
      if isValid env tw.hwnd then
        if injectOk then
          { e with status := { e.status with lastError := none } }
        else
          { e with status := { e.status with lastError := some "injection failed" } }
      else
        { e with status :=
            ⟨false, e.status.registered, some "target window closed"⟩ }
    | KeyMode.window, none =>
      { e with status :=
          ⟨false, e.status.registered, some "target window closed"⟩ }
    | KeyMode.global, _ =>
      if injectOk then
        { e with status := { e.status with lastError := none } }
      else
        { e with status := { e.status with lastError := some "injection failed" } }

/-- Embedded from `saveConfig` in the pinia store (`useHotkeyStore`): the
frontend `config` ref is assigned only when the backend call fulfills —
`config.value = await hotkeyService.saveConfig(next)` — so on a rejected
save the previously stored value remains. -/
def storeConfigAfterSave (old : Option HotkeyConfig)
    (result : Except String HotkeyConfig) : Option HotkeyConfig :=
  match result with
  | Except.ok c => some c
  | Except.error _ => old

/-- Embedded from the `n-input-number` bounds of the interval field in
`HotkeyView.vue` (`:min="20" :max="60000"`): a committed form value is
clamped into the permitted range. -/
def clampIntervalMs (v : Int) : Int :=
  max 20 (min v 60000)

/-- A concrete environment where every key resolves, every combination
parses, no combination is externally held, and every window is live. -/
def envAllOk : Env :=
  ⟨fun _ => true, fun _ => true, fun _ => true, fun _ => some true⟩

/-- A concrete environment whose window query can never confirm a
window. -/
def envNoWindows : Env :=
  ⟨fun _ => true, fun _ => true, fun _ => true, fun _ => none⟩

/-- A concrete environment where the combination `F11` is already held by
another registrant. -/
def envHoldsF11 : Env :=
  ⟨fun _ => true, fun _ => true, fun s => s ≠ "F11", fun _ => some true⟩

/-- The concrete scenario configuration of §8 (`keyMode = Global`). -/
def cfgGlobal : HotkeyConfig :=
  ⟨"F6", 100, "F11", "F12", KeyMode.global, none⟩

/-- A window-mode configuration with a `null` target window, as the
frontend form can submit. -/
def cfgWindowNull : HotkeyConfig :=
  ⟨"F6", 100, "F11", "F12", KeyMode.window, none⟩

/-- A concrete target window. -/
def twSample : TargetWindow :=
  ⟨42, "JX3", "GameClass", "jx3.exe"⟩

/-- An idle engine holding the global scenario configuration. -/
def engineIdle : Engine :=
  ⟨cfgGlobal, ⟨false, true, none⟩⟩

/-- A running engine in window mode targeting `twSample`. -/
def engineRunningWindow : Engine :=
  ⟨⟨"F6", 100, "F11", "F12", KeyMode.window, some twSample⟩, ⟨true, true, none⟩⟩

/-! ## KeyCodec

The key codec lives in the Rust backend, absent from the frontend sources;
it is modelled from §4.1 of the specification. -/

/-- Modelled from the spec: the supported key set of KeyCodec (§4.1) —
letters, digits, function keys up to the platform ceiling (F20, the
ceiling the frontend's `/^F\d+$/` capture documents), arrow keys, space,
and the four standard modifiers. -/
inductive KeyCode where
  | letter (n : Fin 26)
  | digit (n : Fin 10)
  | fkey (n : Fin 20)
  | up
  | down
  | left
  | right
  | space
  | ctrl
  | alt
  | shift
  | meta
deriving DecidableEq, Fintype

/-- Modelled from the spec: `encodeKeyEvent(code) -> text` (§4.1) — a
deterministic, human-readable rendering of each supported key code. -/
def encodeKeyEvent : KeyCode → String
  | KeyCode.letter n => String.mk [Char.ofNat (65 + n.val)]
  | KeyCode.digit n => String.mk [Char.ofNat (48 + n.val)]
  | KeyCode.fkey n => "F" ++ toString (n.val + 1)
  | KeyCode.up => "Up"
  | KeyCode.down => "Down"
  | KeyCode.left => "Left"
  | KeyCode.right => "Right"
  | KeyCode.space => "Space"
  | KeyCode.ctrl => "Ctrl"
  | KeyCode.alt => "Alt"
  | KeyCode.shift => "Shift"
  | KeyCode.meta => "Win"

/-- Reads a non-empty run of decimal digits into a number. -/
def digitsToNat : List Char → Nat → Option Nat
  | [], acc => some acc
  | c :: rest, acc =>
    if c.isDigit then digitsToNat rest (10 * acc + (c.toNat - 48)) else none

def parseNatDigits (cs : List Char) : Option Nat :=
  if cs.isEmpty then none else digitsToNat cs 0

/-- Modelled from the spec: parsing of a single key name, the key half of
`parseKeyCombo` (§4.1); unknown names fail closed. -/
def parseKeyName (s : String) : Option KeyCode :=
  if s = "Up" then some KeyCode.up
  else if s = "Down" then some KeyCode.down
  else if s = "Left" then some KeyCode.left
  else if s = "Right" then some KeyCode.right
  else if s = "Space" then some KeyCode.space
  else if s = "Ctrl" then some KeyCode.ctrl
  else if s = "Alt" then some KeyCode.alt
  else if s = "Shift" then some KeyCode.shift
  else if s = "Win" then some KeyCode.meta
  else
    match s.data with
    | [c] =>
      if h : 65 ≤ c.toNat ∧ c.toNat ≤ 90 then
        some (KeyCode.letter ⟨c.toNat - 65, by omega⟩)
      else if h2 : 48 ≤ c.toNat ∧ c.toNat ≤ 57 then
        some (KeyCode.digit ⟨c.toNat - 48, by omega⟩)
      else none
    | 'F' :: rest =>
      match parseNatDigits rest with
      | some m =>
        if h : 1 ≤ m ∧ m ≤ 20 then some (KeyCode.fkey ⟨m - 1, by omega⟩)
        else none
      | none => none
    | _ => none

def isModifierCode : KeyCode → Bool
  | KeyCode.ctrl => true
  | KeyCode.alt => true
  | KeyCode.shift => true
  | KeyCode.meta => true
  | _ => false

/-- Parses the leading parts of a combination, all of which must name
modifiers. -/
def parseModifierNames : List String → Option (List KeyCode)
  | [] => some []
  | t :: rest =>
    match parseKeyName t with
    | some k =>
      if isModifierCode k then
        (parseModifierNames rest).map (fun ms => k :: ms)
      else none
    | none => none

/-- Modelled from the spec: `parseKeyCombo(text) -> {modifiers, key}`
(§4.1) — splits on `'+'`, the leading parts must be modifiers and the
final part a supported key; anything else fails closed
(`InvalidKeyFormat`, here `none`). -/
def parseKeyCombo (text : String) : Option (List KeyCode × KeyCode) :=
  let parts := (splitOnChar '+' text.data).map String.mk
  match parts.getLast? with
  | none => none
  | some keyText =>
    match parseModifierNames parts.dropLast, parseKeyName keyText with
    | some mods, some key => some (mods, key)
    | _, _ => none

/-! ## Evaluation checks and theorems -/

example :
    buildHotkeyString false
      { key := "s", ctrlKey := true, altKey := true,
        shiftKey := false, metaKey := false } = "Ctrl+Alt+S" := by decide

example :
    buildHotkeyString false
      { key := "Control", ctrlKey := true, altKey := false,
        shiftKey := false, metaKey := false } = "" := by decide

example :
    buildHotkeyString true
      { key := "F11", ctrlKey := false, altKey := false,
        shiftKey := false, metaKey := true } = "Cmd+F11" := by decide

example : generateRandomMac 0 0 171 0 0 255 = "02:00:AB:00:00:FF" := by decide
example : generateRandomMac 255 18 52 86 120 154 = "FE:12:34:56:78:9A" := by decide

/-! ### Basic string facts used below -/

theorem ne_empty_of_data_ne_nil {s : String} (h : s.data ≠ []) : s ≠ "" :=
  fun hc => h (by rw [hc])

theorem data_ne_nil_of_ne_empty {s : String} (h : s ≠ "") : s.data ≠ [] := by
  intro hd
  exact h (String.ext hd)

theorem length_pos_of_ne_empty {s : String} (h : s ≠ "") : 0 < s.length := by
  have hd := data_ne_nil_of_ne_empty h
  have : s.data.length ≠ 0 := fun hc => hd (List.length_eq_zero.mp hc)
  show 0 < s.data.length
  omega

theorem joinWith_length_ge (sep k : String) :
    ∀ xs : List String, k.length ≤ (joinWith sep (xs ++ [k])).length
  | [] => le_of_eq rfl
  | [x] => by
      show k.length ≤ (x ++ sep ++ k).length
      simp only [String.length_append]
      omega
  | x :: y :: xs => by
      have ih := joinWith_length_ge sep k (y :: xs)
      show k.length ≤ (x ++ sep ++ joinWith sep (y :: (xs ++ [k]))).length
      simp only [String.length_append]
      simp only [List.cons_append] at ih
      omega

theorem joinWith_append_singleton_ne_empty (sep : String) {k : String}
    (h : k ≠ "") (xs : List String) : joinWith sep (xs ++ [k]) ≠ "" := by
  intro hc
  have h1 := joinWith_length_ge sep k xs
  rw [hc] at h1
  have h0 : ("" : String).length = 0 := rfl
  have h2 := length_pos_of_ne_empty h
  omega

theorem keyNameOf_ne_empty (isMac : Bool) (key : String)
    (h : key ≠ "") : keyNameOf isMac key ≠ "" := by
  unfold keyNameOf
  split_ifs with h1 h2 h3 h4 h5 h6 h7 h8 h9
  · decide
  · decide
  · decide
  · decide
  · decide
  · decide
  · cases isMac <;> decide
  · exact h
  · apply ne_empty_of_data_ne_nil
    show (key.data.map Char.toUpper) ≠ []
    have := data_ne_nil_of_ne_empty h
    simp [this]
  · apply ne_empty_of_data_ne_nil
    have hd := data_ne_nil_of_ne_empty h
    unfold capitalizeFirst
    cases hc : key.data with
    | nil => exact absurd hc hd
    | cons c rest => simp

/-! ### C9 -/

/-- C9: For every keyboard event (whose `key` is non-empty, as the DOM
guarantees), `buildHotkeyString` returns the empty string if and only if the
pressed key is a bare modifier (`Control`, `Alt`, `Shift` or `Meta`);
otherwise it returns the active modifier names in the fixed order Ctrl, Alt,
Shift, Cmd-or-Win, followed by the name produced by `keyEventToKeyName`,
joined by `'+'` — so no saved hotkey string ever consists of modifiers
alone. -/
theorem buildHotkeyString_empty_iff_bare_modifier (isMac : Bool)
    (e : KeyboardEvent) (h : e.key ≠ "") :
    (buildHotkeyString isMac e = "" ↔ e.key ∈ bareModifierNames) ∧
    (e.key ∉ bareModifierNames →
      buildHotkeyString isMac e =
        joinWith "+" (modifierParts isMac e ++ [keyEventToKeyName isMac e])) := by
  by_cases hm : e.key ∈ bareModifierNames
  · refine ⟨⟨fun _ => hm, fun _ => ?_⟩, fun hn => absurd hm hn⟩
    simp [buildHotkeyString, hm]
  · have hne : keyEventToKeyName isMac e ≠ "" := keyNameOf_ne_empty isMac e.key h
    have heq : buildHotkeyString isMac e =
        joinWith "+" (modifierParts isMac e ++ [keyEventToKeyName isMac e]) := by
      simp [buildHotkeyString, hm]
    refine ⟨⟨fun h0 => ?_, fun hc => absurd hc hm⟩, fun _ => heq⟩
    rw [heq] at h0
    exact absurd h0 (joinWith_append_singleton_ne_empty "+" hne _)

/-- Witness for C9 at the concrete event Ctrl+Alt with key `"s"` on a
non-Mac platform. -/
theorem buildHotkeyString_empty_iff_bare_modifier_witness :
    ("s" : String) ≠ "" ∧
      ((buildHotkeyString false ⟨"s", true, true, false, false⟩ = "" ↔
          ("s" : String) ∈ bareModifierNames) ∧
        (("s" : String) ∉ bareModifierNames →
          buildHotkeyString false ⟨"s", true, true, false, false⟩ =
            joinWith "+" (modifierParts false ⟨"s", true, true, false, false⟩ ++
              [keyEventToKeyName false ⟨"s", true, true, false, false⟩]))) :=
  ⟨by decide,
    buildHotkeyString_empty_iff_bare_modifier false
      ⟨"s", true, true, false, false⟩ (by decide)⟩

set_option maxRecDepth 8192 in
theorem upperHexOctet_spec :
    ∀ b < 256, isMacOctet (upperHexOctet b) = true ∧
      octetValue (upperHexOctet b) = b := by decide

set_option maxRecDepth 8192 in
theorem adjustedByte_spec :
    ∀ b < 256, ((b ||| 2) &&& 254) < 256 ∧
      ((b ||| 2) &&& 254).testBit 0 = false ∧
      ((b ||| 2) &&& 254).testBit 1 = true := by decide

theorem data_mk (l : List Char) : (String.mk l).data = l := rfl

theorem jsToUpperCase_append (s t : String) :
    jsToUpperCase (s ++ t) = jsToUpperCase s ++ jsToUpperCase t := by
  apply String.ext
  show ((s ++ t).data.map Char.toUpper) =
    (String.mk (s.data.map Char.toUpper) ++ String.mk (t.data.map Char.toUpper)).data
  rw [String.data_append]
  show (s.data ++ t.data).map Char.toUpper =
    s.data.map Char.toUpper ++ t.data.map Char.toUpper
  exact List.map_append Char.toUpper s.data t.data


/-! ### C10 -/

/-- C10: Every address produced by `generateRandomMac` — for every outcome
of the six random byte draws — is a locally administered unicast MAC in
canonical form: six two-hex-digit uppercase octets joined by `':'`, where
the first octet's bit 0 (the unicast bit) is 0 and bit 1 (the
locally-administered bit) is 1, and the first octet encodes exactly
`(b0 | 0x02) & 0xFE`. -/
theorem generateRandomMac_canonical (b0 b1 b2 b3 b4 b5 : Nat)
    (h0 : b0 < 256) (h1 : b1 < 256) (h2 : b2 < 256)
    (h3 : b3 < 256) (h4 : b4 < 256) (h5 : b5 < 256) :
    ∃ o0 o1 o2 o3 o4 o5 : String,
      generateRandomMac b0 b1 b2 b3 b4 b5 =
        o0 ++ ":" ++ o1 ++ ":" ++ o2 ++ ":" ++ o3 ++ ":" ++ o4 ++ ":" ++ o5 ∧
      (isMacOctet o0 ∧ isMacOctet o1 ∧ isMacOctet o2 ∧
        isMacOctet o3 ∧ isMacOctet o4 ∧ isMacOctet o5) ∧
      octetValue o0 = (b0 ||| 2) &&& 254 ∧
      (octetValue o0).testBit 0 = false ∧
      (octetValue o0).testBit 1 = true := by
  have ha := adjustedByte_spec b0 h0
  refine ⟨upperHexOctet ((b0 ||| 2) &&& 254), upperHexOctet b1, upperHexOctet b2,
    upperHexOctet b3, upperHexOctet b4, upperHexOctet b5, ?_, ?_, ?_, ?_, ?_⟩
  · apply String.ext
    have hcolon : Char.toUpper ':' = ':' := by decide
    simp only [generateRandomMac, upperHexOctet, List.map, joinWith,
      jsToUpperCase, data_mk, String.data_append, List.map_append,
      List.map_cons, List.map_nil, List.append_eq, List.nil_append,
      List.cons_append, List.append_assoc, hcolon]
  · exact ⟨(upperHexOctet_spec _ ha.1).1, (upperHexOctet_spec b1 h1).1,
      (upperHexOctet_spec b2 h2).1, (upperHexOctet_spec b3 h3).1,
      (upperHexOctet_spec b4 h4).1, (upperHexOctet_spec b5 h5).1⟩
  · exact (upperHexOctet_spec _ ha.1).2
  · rw [(upperHexOctet_spec _ ha.1).2]
    exact ha.2.1
  · rw [(upperHexOctet_spec _ ha.1).2]
    exact ha.2.2

/-- Witness for C10 at the draw `(0, 0, 0, 0, 0, 0)`. -/
theorem generateRandomMac_canonical_witness :
    (0 : Nat) < 256 ∧
      (∃ o0 o1 o2 o3 o4 o5 : String,
        generateRandomMac 0 0 0 0 0 0 =
          o0 ++ ":" ++ o1 ++ ":" ++ o2 ++ ":" ++ o3 ++ ":" ++ o4 ++ ":" ++ o5 ∧
        (isMacOctet o0 ∧ isMacOctet o1 ∧ isMacOctet o2 ∧
          isMacOctet o3 ∧ isMacOctet o4 ∧ isMacOctet o5) ∧
        octetValue o0 = ((0 : Nat) ||| 2) &&& 254 ∧
        (octetValue o0).testBit 0 = false ∧
        (octetValue o0).testBit 1 = true) :=
  ⟨by decide,
    generateRandomMac_canonical 0 0 0 0 0 0 (by decide) (by decide)
      (by decide) (by decide) (by decide) (by decide)⟩

/-! ### Engine lemmas -/

theorem validateConfig_spec {env : Env} {cfg : HotkeyConfig}
    (h : validateConfig env cfg = true) :
    (20 : Int) ≤ cfg.intervalMs ∧ configInvariant cfg ∧
      env.comboParsable cfg.startHotkey = true ∧
      env.comboParsable cfg.stopHotkey = true := by
  simp only [validateConfig, Bool.and_eq_true, decide_eq_true_eq] at h
  exact ⟨h.1.1.1.1.1.1.2, h.2, h.1.1.2, h.1.2⟩

theorem stopTask_config (e : Engine) : (stopTask e).config = e.config := by
  unfold stopTask
  split <;> rfl

theorem tick_config (env : Env) (injectOk : Bool) (e : Engine) :
    (tick env injectOk e).config = e.config := by
  unfold tick
  split
  · rfl
  · split
    · split
      · split <;> rfl
      · rfl
    · rfl
    · split <;> rfl

theorem onStartHotkeyPressed_config (env : Env) (e : Engine) :
    (onStartHotkeyPressed env e).config = e.config := by
  unfold onStartHotkeyPressed
  split
  · rfl
  · split
    · rfl
    · split
      · split <;> rfl
      · rfl
      · rfl

/-! ### C1 -/

/-- C1: A submitted configuration with `keyMode = Window` and
`targetWindow = null` is rejected with `ValidationError` (the engine's
stored state untouched), and the invariant
`keyMode = Window ⇒ targetWindow != null` is preserved by every engine
operation. -/
theorem window_invariant_enforced (env : Env) (e : Engine)
    (next : HotkeyConfig) :
    (next.keyMode = KeyMode.window → next.targetWindow = none →
      saveConfig env e next = (e, Except.error "ValidationError")) ∧
    (configInvariant e.config →
      configInvariant (saveConfig env e next).1.config ∧
      configInvariant (stopTask e).config ∧
      (∀ injectOk, configInvariant (tick env injectOk e).config) ∧
      configInvariant (onStartHotkeyPressed env e).config) := by
  constructor
  · intro hw ht
    have hinv : ¬ configInvariant next := fun f => (f hw) ht
    have hv : validateConfig env next = false := by
      simp [validateConfig, hinv]
    simp [saveConfig, hv]
  · intro hi
    refine ⟨?_, ?_, ?_, ?_⟩
    · by_cases hv : validateConfig env next = true
      · have hnext := (validateConfig_spec hv).2.1
        unfold saveConfig
        rw [hv]
        cases hr : registerHotkeys env next <;> simp [hr] <;> exact hnext
      · rw [Bool.not_eq_true] at hv
        simp [saveConfig, hv]
        exact hi
    · rw [stopTask_config]; exact hi
    · intro injectOk; rw [tick_config]; exact hi
    · rw [onStartHotkeyPressed_config]; exact hi

/-- Witness for C1: the window-mode configuration with a `null` target is
rejected and the stored state is unchanged; saving the valid global
configuration preserves the invariant. -/
theorem window_invariant_enforced_witness :
    saveConfig envAllOk engineIdle cfgWindowNull =
      (engineIdle, Except.error "ValidationError") ∧
    configInvariant (saveConfig envAllOk engineIdle cfgGlobal).1.config :=
  ⟨(window_invariant_enforced envAllOk engineIdle cfgWindowNull).1 rfl rfl,
    ((window_invariant_enforced envAllOk engineIdle cfgGlobal).2
      (by decide)).1⟩

/-! ### C2 -/

/-- C2: In window mode, when the target window has become invalid before a
tick, that tick stops the loop: `running` becomes `false`, `lastError`
becomes the non-null message `"target window closed"`, `registered` is
untouched — and `tick` is a total function, so no exception escapes. -/
theorem tick_stops_on_invalid_target (env : Env) (e : Engine)
    (tw : TargetWindow) (injectOk : Bool)
    (hrun : e.status.running = true)
    (hmode : e.config.keyMode = KeyMode.window)
    (htw : e.config.targetWindow = some tw)
    (hbad : isValid env tw.hwnd = false) :
    (tick env injectOk e).status.running = false ∧
    (tick env injectOk e).status.lastError = some "target window closed" ∧
    (tick env injectOk e).status.registered = e.status.registered := by
  unfold tick
  rw [hrun, hmode, htw]
  simp [hbad]

/-- Witness for C2: a running window-mode engine whose target can no longer
be confirmed stops with the `"target window closed"` error on the next
tick. -/
theorem tick_stops_on_invalid_target_witness :
    (tick envNoWindows true engineRunningWindow).status.running = false ∧
    (tick envNoWindows true engineRunningWindow).status.lastError =
      some "target window closed" ∧
    (tick envNoWindows true engineRunningWindow).status.registered =
      engineRunningWindow.status.registered :=
  tick_stops_on_invalid_target envNoWindows engineRunningWindow twSample true
    rfl rfl rfl rfl

/-! ### C3 -/

/-- C3: `saveConfig(next)` returns the stored configuration on success and
fails with `ValidationError` on malformed input; on failure no side effect
has been applied — the engine state is unchanged and the frontend store,
which assigns `config.value` only from a fulfilled call, keeps the old
value. -/
theorem saveConfig_result_spec (env : Env) (e : Engine)
    (next : HotkeyConfig) (old : Option HotkeyConfig) :
    (validateConfig env next = false →
      (saveConfig env e next).2 = Except.error "ValidationError" ∧
      (saveConfig env e next).1 = e ∧
      storeConfigAfterSave old (saveConfig env e next).2 = old) ∧
    (validateConfig env next = true →
      (saveConfig env e next).2 = Except.ok next ∧
      (saveConfig env e next).1.config = next ∧
      storeConfigAfterSave old (saveConfig env e next).2 = some next) := by
  constructor
  · intro hv
    simp [saveConfig, hv, storeConfigAfterSave]
  · intro hv
    unfold saveConfig
    rw [hv]
    cases hr : registerHotkeys env next <;>
      simp [hr, storeConfigAfterSave]

/-- Witness for C3: the malformed window-mode configuration is rejected
with the store untouched, and the valid global configuration is stored and
echoed back. -/
theorem saveConfig_result_spec_witness :
    ((saveConfig envAllOk engineIdle cfgWindowNull).2 =
        Except.error "ValidationError" ∧
      (saveConfig envAllOk engineIdle cfgWindowNull).1 = engineIdle ∧
      storeConfigAfterSave (some cfgGlobal)
        (saveConfig envAllOk engineIdle cfgWindowNull).2 = some cfgGlobal) ∧
    ((saveConfig envAllOk engineIdle cfgGlobal).2 = Except.ok cfgGlobal ∧
      (saveConfig envAllOk engineIdle cfgGlobal).1.config = cfgGlobal ∧
      storeConfigAfterSave (some cfgWindowNull)
        (saveConfig envAllOk engineIdle cfgGlobal).2 = some cfgGlobal) :=
  ⟨(saveConfig_result_spec envAllOk engineIdle cfgWindowNull
      (some cfgGlobal)).1 (by decide),
    (saveConfig_result_spec envAllOk engineIdle cfgGlobal
      (some cfgWindowNull)).2 (by decide)⟩

/-! ### C4 -/

/-- C4: `stopTask()` on an already idle engine is a no-op — the whole state
(in particular every `Status` field) is unchanged and no error is recorded;
stopping is idempotent, so a second (e.g. hotkey-triggered) stop changes
nothing more, and `stopTask` never touches `lastError` or `registered`. -/
theorem stopTask_idle_noop (e : Engine) :
    (e.status.running = false → stopTask e = e) ∧
    stopTask (stopTask e) = stopTask e ∧
    (stopTask e).status.lastError = e.status.lastError ∧
    (stopTask e).status.registered = e.status.registered := by
  by_cases hr : e.status.running
  · refine ⟨fun h => absurd h (by simp [hr]), ?_, ?_, ?_⟩ <;>
      simp [stopTask, hr]
  · rw [Bool.not_eq_true] at hr
    refine ⟨fun _ => ?_, ?_, ?_, ?_⟩ <;> simp [stopTask, hr]

/-- Witness for C4 at the concrete idle engine. -/
theorem stopTask_idle_noop_witness :
    stopTask engineIdle = engineIdle :=
  (stopTask_idle_noop engineIdle).1 rfl

/-! ### C6 -/

/-- C6: Every configuration accepted at validation has
`intervalMs ≥ 20` (an integer, by type), and every value constructible
through the form's interval control lies in `[20, 60000]`. -/
theorem intervalMs_bounds (env : Env) (cfg : HotkeyConfig) (v : Int) :
    (validateConfig env cfg = true → (20 : Int) ≤ cfg.intervalMs) ∧
    (20 : Int) ≤ clampIntervalMs v ∧ clampIntervalMs v ≤ 60000 := by
  refine ⟨fun h => (validateConfig_spec h).1, le_max_left _ _, ?_⟩
  apply max_le
  · norm_num
  · exact min_le_right _ _

/-- Witness for C6 at the concrete scenario configuration and a raw form
value of 5. -/
theorem intervalMs_bounds_witness :
    (20 : Int) ≤ cfgGlobal.intervalMs ∧
      (20 : Int) ≤ clampIntervalMs 5 ∧ clampIntervalMs 5 ≤ 60000 :=
  ⟨(intervalMs_bounds envAllOk cfgGlobal 5).1 (by decide),
    (intervalMs_bounds envAllOk cfgGlobal 5).2⟩

/-! ### C7 -/

/-- C7: `isValid` is total on every handle — it yields a boolean for every
input (never an exception), it returns `false` for any handle whose
existence/visibility the OS query cannot confirm, and it returns `true`
exactly when the query confirms a live window. -/
theorem isValid_total (env : Env) (hwnd : Nat) :
    (isValid env hwnd = true ∨ isValid env hwnd = false) ∧
    (env.queryWindow hwnd = none → isValid env hwnd = false) ∧
    (isValid env hwnd = true ↔ env.queryWindow hwnd = some true) := by
  refine ⟨?_, fun h => by simp [isValid, h], ?_⟩
  · cases h : isValid env hwnd
    · exact Or.inr rfl
    · exact Or.inl rfl
  cases hq : env.queryWindow hwnd with
  | none => simp [isValid, hq]
  | some b => cases b <;> simp [isValid, hq]

/-- Witness for C7: under the environment whose query can never confirm a
window, handle 42 is reported invalid. -/
theorem isValid_total_witness :
    isValid envNoWindows 42 = false :=
  (isValid_total envNoWindows 42).2.1 rfl

/-! ### C8 -/

/-- C8: When registering the configured `startHotkey` fails with
`HotkeyConflict` (the combination parses but is already held), the engine
ends up with `registered = false`, `lastError` set, still `Idle`, and the
submitted configuration stored; it stays usable — a later valid,
conflict-free save registers successfully. -/
theorem hotkey_conflict_keeps_config (env : Env) (cfg : HotkeyConfig)
    (hps : env.comboParsable cfg.startHotkey = true)
    (hpp : env.comboParsable cfg.stopHotkey = true)
    (hc : env.comboFree cfg.startHotkey = false) :
    (initEngine env cfg).status.registered = false ∧
    (initEngine env cfg).status.lastError = some "HotkeyConflict" ∧
    (initEngine env cfg).status.running = false ∧
    (initEngine env cfg).config = cfg ∧
    (∀ next, validateConfig env next = true →
      env.comboFree next.startHotkey = true →
      env.comboFree next.stopHotkey = true →
      (saveConfig env (initEngine env cfg) next).1.status.registered = true ∧
      (saveConfig env (initEngine env cfg) next).2 = Except.ok next) := by
  have hreg : registerHotkeys env cfg = some "HotkeyConflict" := by
    simp [registerHotkeys, hps, hpp, hc]
  refine ⟨by simp [initEngine, hreg], by simp [initEngine, hreg],
    by simp [initEngine, hreg], by simp [initEngine, hreg], ?_⟩
  intro next hv hfs hfp
  have hp := validateConfig_spec hv
  have hregn : registerHotkeys env next = none := by
    simp [registerHotkeys, hp.2.2.1, hp.2.2.2, hfs, hfp]
  unfold saveConfig
  rw [hv, hregn]
  simp

/-- Witness for C8: under the environment already holding `F11`,
initializing with the scenario configuration leaves the engine
unregistered, idle, with the configuration stored. -/
theorem hotkey_conflict_keeps_config_witness :
    (initEngine envHoldsF11 cfgGlobal).status.registered = false ∧
    (initEngine envHoldsF11 cfgGlobal).status.lastError =
      some "HotkeyConflict" ∧
    (initEngine envHoldsF11 cfgGlobal).status.running = false ∧
    (initEngine envHoldsF11 cfgGlobal).config = cfgGlobal :=
  ⟨(hotkey_conflict_keeps_config envHoldsF11 cfgGlobal (by decide)
      (by decide) (by decide)).1,
    (hotkey_conflict_keeps_config envHoldsF11 cfgGlobal (by decide)
      (by decide) (by decide)).2.1,
    (hotkey_conflict_keeps_config envHoldsF11 cfgGlobal (by decide)
      (by decide) (by decide)).2.2.1,
    (hotkey_conflict_keeps_config envHoldsF11 cfgGlobal (by decide)
      (by decide) (by decide)).2.2.2.1⟩

/-! ### C5 -/

/-- C5: For every key code in the supported set — letters, digits,
function keys up to the F20 ceiling, arrows, space and the four standard
modifiers — `parseKeyCombo (encodeKeyEvent x)` recovers exactly `x` with
no modifiers, and `encodeKeyEvent` is deterministic (equal codes yield
equal text). -/
theorem parse_encode_roundtrip :
    (∀ x : KeyCode, parseKeyCombo (encodeKeyEvent x) = some ([], x)) ∧
    (∀ x y : KeyCode, x = y → encodeKeyEvent x = encodeKeyEvent y) := by
  constructor
  · decide
  · intro x y h
    rw [h]

end JxTools
